import Mathlib

/-!
Shallow embedding of the cucumber test-runner core (src/lib.rs) and proofs
about its step-resolution, capture, skip-propagation and tallying logic.

Conventions of the embedding:
* Rust machine types are modelled with `Nat`/`String`; byte buffers with
  `String` (the code only reads them through `String::from_utf8_lossy`).
* Fallible code (panics such as `Option::unwrap`, `Mutex::lock().expect`,
  `fs::read_dir(..).expect`) is modelled with `Except`.
* The `regex::Regex` type is an external crate; it is modelled by its
  interface: a total `captures` function returning, on a match, the list
  `[group 0 (whole match), group 1, group 2, ...]` where a capture group
  that did not participate in the match is `none` (this mirrors
  `Captures::iter`).  `is_match` holds exactly when `captures` succeeds.
  Concrete patterns used as inputs below are hand-translations of the
  concrete regular expressions named in their doc comments.
* A Rust `HashMap` is modelled as an association list; crucially, for the
  regex bags the list order represents the map's ITERATION order, which in
  Rust's `HashMap` is unspecified and in particular is not tied to
  insertion (registration) order.
* The `OutputVisitor` calls are modelled as an emitted event trace
  (one constructor per visitor method); `DefaultOutput`'s counter updates
  are a fold over that trace.
-/

namespace Cucumber

/-- Step kinds, mirroring `gherkin::StepType` (`Given | When | Then`). -/
inductive StepType where
  | Given
  | When
  | Then
deriving DecidableEq

/-- A parsed Gherkin step, mirroring the fields of `gherkin::Step` that the
core reads: its kind (`step.ty`) and its literal text (`step.value`).
The `docstring` and `position` fields only influence printing and are
omitted. -/
structure Step where
  ty : StepType
  value : String
deriving DecidableEq

/-- A feature background, mirroring `gherkin::Background`: an ordered step
list. -/
structure Background where
  steps : List Step
deriving DecidableEq

/-- A scenario, mirroring `gherkin::Scenario`: a name and an ordered step
list. -/
structure Scenario where
  name : String
  steps : List Step
deriving DecidableEq

/-- A feature, mirroring `gherkin::Feature`: a name, an optional background
and an ordered scenario list. -/
structure Feature where
  name : String
  background : Option Background
  scenarios : List Scenario
deriving DecidableEq

/-- Model of a compiled `regex::Regex` (wrapped as `HashableRegex` in the
source).  `source` is the pattern text (`Regex::as_str`); `captures` is the
interface of `Regex::captures`: `none` when the text does not match, and on
a match the list of capture groups starting with group 0 (the whole match),
where a group that did not participate is `none`. -/
structure Pattern where
  source : String
  captures : String → Option (List (Option String))

/-- Model of `Regex::is_match`: a regex matches exactly when `captures`
returns a value (group 0 always participates). -/
def is_match (p : Pattern) (s : String) : Bool :=
  (p.captures s).isSome

/-- Outcome of one handler invocation body, as observed by `capture_io` and
the panic hook: the world after the call (mutations before a panic
persist, since the handler takes `&mut T`), everything the handler printed
through the redirected stdout, and — when the handler panicked — the panic
payload and source location. -/
inductive Payload where
  | string (s : String)
  | strSlice (s : String)
  | other
deriving DecidableEq

/-- The location/payload recorded for an abnormal termination:
`payload` is the `Box<dyn Any + Send>` from `catch_unwind`, `location` is
`PanicInfo::location()` formatted as `file:line:column` (the hook's
format). -/
structure PanicInfo where
  payload : Payload
  location : Option String
deriving DecidableEq

/-- Result of running a handler body under `capture_io`. -/
structure HandlerOutcome (T : Type) where
  world : T
  printed : String
  panicked : Option PanicInfo

/-- Model of the `TestFn<T> = fn(&mut T, &Step)` handler wrapped in
`TestCase<T>`; the function returns what `capture_io` observes. -/
structure TestCase (T : Type) where
  test : T → Step → HandlerOutcome T

/-- Model of the `TestRegexFn<T> = fn(&mut T, &[String], &Step)` handler
wrapped in `RegexTestCase<'a, T>`. -/
structure RegexTestCase (T : Type) where
  test : T → List String → Step → HandlerOutcome T

/-- Mirror of `enum TestCaseType<'a, T>`: a resolved step handler, either a
plain one or a regex one together with the captured strings. -/
inductive TestCaseType (T : Type) where
  | Normal (t : TestCase T)
  | Regex (t : RegexTestCase T) (captured : List String)

/-- Mirror of `enum TestResult`. -/
inductive TestResult where
  | MutexPoisoned
  | Skipped
  | Unimplemented
  | Pass
  | Fail (message : String) (location : String)
deriving DecidableEq

/-- Whether a result is `Pass`; mirrors the
`match result { TestResult::Pass => .. , _ => .. }` in `run_scenario`. -/
def TestResult.isPass : TestResult → Bool
  | .Pass => true
  | _ => false

/-- State of the shared `Arc<Mutex<Option<String>>>` `last_panic` cell:
whether the mutex is poisoned, and the location stored by the panic hook. -/
structure LastPanic where
  poisoned : Bool
  loc : Option String
deriving DecidableEq

/-- Abnormal terminations of the runner itself (panics that are NOT caught
by `capture_io` and therefore escape the step boundary):
`unwrapNone` is the `Option::unwrap` in `test_type` on a capture group
that did not participate in the match; `poisonedLock` is the
`lock().expect(..)` on a poisoned `last_panic` mutex inside `run_test`'s
panic hook. -/
inductive RunPanic where
  | unwrapNone
  | poisonedLock
deriving DecidableEq

/-- Mirror of `struct RegexSteps<'s, T>`: one regex bag per step kind.
Each bag is a `HashMap<HashableRegex, RegexTestCase>`, modelled as an
association list IN THE MAP'S ITERATION ORDER (which in Rust is
unspecified, not registration order). -/
structure RegexSteps (T : Type) where
  given : List (Pattern × RegexTestCase T)
  when : List (Pattern × RegexTestCase T)
  then_ : List (Pattern × RegexTestCase T)

/-- Mirror of `struct Steps<'s, T>`: one exact-text bag
(`HashMap<&'static str, TestCase<T>>`) per step kind, plus the regex bags.
The field `then` of the source is spelled `then_` (keyword). -/
structure Steps (T : Type) where
  given : List (String × TestCase T)
  when : List (String × TestCase T)
  then_ : List (String × TestCase T)
  regex : RegexSteps T

variable {T : Type}

/-- Mirror of `Steps::test_bag_for`. -/
def test_bag_for (steps : Steps T) (ty : StepType) : List (String × TestCase T) :=
  match ty with
  | .Given => steps.given
  | .When => steps.when
  | .Then => steps.then_

/-- Mirror of `Steps::regex_bag_for`. -/
def regex_bag_for (steps : Steps T) (ty : StepType) : List (Pattern × RegexTestCase T) :=
  match ty with
  | .Given => steps.regex.given
  | .When => steps.regex.when
  | .Then => steps.regex.then_

/-- Model of the capture rebuild
`matches.iter().map(|x| x.unwrap().as_str().to_string()).collect()`:
unwrap every capture group in order; `none` models the `Option::unwrap`
panic at the first group that did not participate in the match. -/
def unwrapAll : List (Option String) → Option (List String)
  | [] => some []
  | none :: _ => none
  | some s :: t =>
    match unwrapAll t with
    | some r => some (s :: r)
    | none => none

/-- Mirror of `Steps::test_type`: exact-text lookup first
(`test_bag.get(&*step.value)`); on a miss, scan the regex bag in its
iteration order for the first matching pattern
(`regex_bag.iter().find(|(regex, _)| regex.is_match(..))`), then rebuild
the captures and unwrap every group with `unwrapAll`.  The
`Option::unwrap` panics are modelled with `Except.error
RunPanic.unwrapNone`: the outer one (`captures(..).unwrap()`) cannot fail
because `find?` guarantees a match, the per-group one fails on a capture
group that did not participate. -/
def test_type (steps : Steps T) (step : Step) :
    Except RunPanic (Option (TestCaseType T)) :=
  match (test_bag_for steps step.ty).find? (fun kv => kv.1 == step.value) with
  | some kv => .ok (some (.Normal kv.2))
  | none =>
    match (regex_bag_for steps step.ty).find? (fun e => is_match e.1 step.value) with
    | some pe =>
      match pe.1.captures step.value with
      | some cs =>
        match unwrapAll cs with
        | some ms => .ok (some (.Regex pe.2 ms))
        | none => .error .unwrapNone
      | none => .error .unwrapNone
    | none => .ok none

/-- Mirror of `Steps::run_test_inner`: dispatch to the handler. -/
def run_test_inner (w : T) (tt : TestCaseType T) (step : Step) : HandlerOutcome T :=
  match tt with
  | .Normal t => t.test w step
  | .Regex t c => t.test w c step

/-- The payload inspection in `run_test`: `downcast_ref::<String>`, then
`downcast_ref::<&str>`, else the empty string. -/
def downcastStr : Payload → String
  | .string s => s
  | .strSlice s => s
  | .other => ""

/-- Mirror of `Steps::run_test`: install a panic hook recording the panic
location into `last_panic`, run the handler under `capture_io`, then
classify.  On normal completion: `Pass` (the `last_panic` cell is never
locked on this path, even if poisoned).  On a panic: the hook runs at
panic time and does `last_panic.lock().expect("last_panic unpoisoned")` —
on a poisoned mutex this panics inside the hook (modelled as
`RunPanic.poisonedLock`); otherwise the hook stores the panic's location,
and the classification reads it back: payload `"not yet implemented"`
(as `String` or `&str`) gives `Unimplemented`; anything else gives
`Fail(message, loc)` with `message` the captured stdout when nonempty
(`captured_io.stdout.len() > 0`), else `"Panicked with: {s}"`, and `loc`
the recorded location or `"unknown"`. -/
def run_test (w : T) (tt : TestCaseType T) (step : Step) (lp : LastPanic) :
    Except RunPanic (T × LastPanic × TestResult) :=
  match (run_test_inner w tt step).panicked with
  | none => .ok ((run_test_inner w tt step).world, lp, .Pass)
  | some pinfo =>
    if lp.poisoned then .error .poisonedLock
    else
      if downcastStr pinfo.payload = "not yet implemented" then
        .ok ((run_test_inner w tt step).world, { lp with loc := pinfo.location },
          .Unimplemented)
      else
        .ok ((run_test_inner w tt step).world, { lp with loc := pinfo.location },
          .Fail
            (if (run_test_inner w tt step).printed.length > 0 then
              (run_test_inner w tt step).printed
            else "Panicked with: " ++ downcastStr pinfo.payload)
            (match pinfo.location with
             | some v => v
             | none => "unknown"))

/-- One `OutputVisitor` method call; `Steps::run`/`run_scenario` emit these
in program order.  Constructors are named after the trait methods.  The
`path` argument of `visit_feature` and the tallies of `visit_finish` are
not part of the core's control flow and are omitted. -/
inductive Event where
  | visit_start
  | visit_feature (f : Feature)
  | visit_feature_end (f : Feature)
  | visit_scenario (sc : Scenario)
  | visit_scenario_skipped (sc : Scenario)
  | visit_scenario_end (sc : Scenario)
  | visit_step (s : Step)
  | visit_step_result (s : Step) (r : TestResult)
  | visit_finish
deriving DecidableEq

/-- The step loop of `Steps::run_scenario` (lines 514-544): for each step,
emit `visit_step`, resolve it; when unresolved emit `Unimplemented` and —
only if not yet skipping — transition to skipping and emit
`visit_scenario_skipped`; when resolved and already skipping emit
`Skipped` without invoking the handler; otherwise invoke `run_test`, emit
its result, and on a non-`Pass` result transition to skipping and emit
`visit_scenario_skipped`.  A `RunPanic` (from `test_type` or `run_test`)
aborts the loop; the events emitted before it are kept in the first
component. -/
def runSteps (reg : Steps T) (sc : Scenario) :
    List Step → T → LastPanic → Bool →
    List Event × Except RunPanic (T × LastPanic × Bool)
  | [], w, lp, sk => ([], .ok (w, lp, sk))
  | s :: rest, w, lp, sk =>
    match test_type reg s with
    | .error e => ([Event.visit_step s], .error e)
    | .ok none =>
      (Event.visit_step s :: Event.visit_step_result s TestResult.Unimplemented ::
        ((if sk then [] else [Event.visit_scenario_skipped sc]) ++
          (runSteps reg sc rest w lp true).1),
        (runSteps reg sc rest w lp true).2)
    | .ok (some tt) =>
      if sk then
        (Event.visit_step s :: Event.visit_step_result s TestResult.Skipped ::
          (runSteps reg sc rest w lp true).1,
          (runSteps reg sc rest w lp true).2)
      else
        match run_test w tt s lp with
        | .error e => ([Event.visit_step s], .error e)
        | .ok (w2, lp2, r) =>
          (Event.visit_step s :: Event.visit_step_result s r ::
            ((if r.isPass then [] else [Event.visit_scenario_skipped sc]) ++
              (runSteps reg sc rest w2 lp2 (if r.isPass then false else true)).1),
            (runSteps reg sc rest w2 lp2 (if r.isPass then false else true)).2)

/-- The ordered step list built by `run_scenario`: background steps (when
the feature has a background) followed by the scenario's own steps. -/
def scenario_steps (f : Feature) (sc : Scenario) : List Step :=
  (match f.background with
   | some bg => bg.steps
   | none => []) ++ sc.steps

/-- Mirror of `Steps::run_scenario`: emit `visit_scenario`, build a fresh
world (the `capture_io(|| T::default())` call is modelled by the `w0`
argument; the claims below do not concern a panicking `Default` impl),
run the steps starting in the non-skipping state, and emit
`visit_scenario_end`.  The result carries the final world, the
`last_panic` state and the final skipping flag. -/
def run_scenario (reg : Steps T) (f : Feature) (sc : Scenario)
    (lp : LastPanic) (w0 : T) :
    List Event × Except RunPanic (T × LastPanic × Bool) :=
  match (runSteps reg sc (scenario_steps f sc) w0 lp false).2 with
  | .ok st =>
    (Event.visit_scenario sc ::
      ((runSteps reg sc (scenario_steps f sc) w0 lp false).1 ++
        [Event.visit_scenario_end sc]), .ok st)
  | .error e =>
    (Event.visit_scenario sc ::
      (runSteps reg sc (scenario_steps f sc) w0 lp false).1, .error e)

/-- The scenario loop of `Steps::run`: every scenario of a feature runs
through `run_scenario`, sequentially, threading the shared `last_panic`
cell.  Each scenario gets a fresh world (`mkWorld` models
`T::default()`). -/
def runScenarios (reg : Steps T) (mkWorld : T) (f : Feature) :
    List Scenario → LastPanic → List Event × Except RunPanic LastPanic
  | [], lp => ([], .ok lp)
  | sc :: rest, lp =>
    match (run_scenario reg f sc lp mkWorld).2 with
    | .error e => ((run_scenario reg f sc lp mkWorld).1, .error e)
    | .ok st =>
      ((run_scenario reg f sc lp mkWorld).1 ++
        (runScenarios reg mkWorld f rest st.2.1).1,
        (runScenarios reg mkWorld f rest st.2.1).2)

/-- The feature loop of `Steps::run`: `visit_feature`, all scenarios,
`visit_feature_end`, for each feature in order. -/
def runFeatures (reg : Steps T) (mkWorld : T) :
    List Feature → LastPanic → List Event × Except RunPanic LastPanic
  | [], lp => ([], .ok lp)
  | f :: rest, lp =>
    match (runScenarios reg mkWorld f f.scenarios lp).2 with
    | .error e =>
      (Event.visit_feature f :: (runScenarios reg mkWorld f f.scenarios lp).1,
        .error e)
    | .ok lp2 =>
      (Event.visit_feature f ::
        ((runScenarios reg mkWorld f f.scenarios lp).1 ++
          Event.visit_feature_end f :: (runFeatures reg mkWorld rest lp2).1),
        (runFeatures reg mkWorld rest lp2).2)

/-- How a run can abort without producing a `TestResult`: the
`fs::read_dir(feature_path).expect("feature path to exist")` panic (a
configuration error), or an uncaught `RunPanic` escaping a step. -/
inductive RunAbort where
  | configError (msg : String)
  | stepPanic (e : RunPanic)
deriving DecidableEq

/-- Mirror of `Steps::run` (lines 549-572): FIRST emit `visit_start`, THEN
obtain the feature sources with `fs::read_dir(..).expect("feature path to
exist")` — modelled by the `readDir` argument, whose `error` case is an
unreadable feature path.  On success, create the fresh `last_panic` cell,
run every feature, and emit `visit_finish`.  The first component is the
event trace emitted before returning or aborting. -/
def run (reg : Steps T) (mkWorld : T) (readDir : Except String (List Feature)) :
    List Event × Except RunAbort Unit :=
  match readDir with
  | .error _ => ([Event.visit_start], .error (.configError "feature path to exist"))
  | .ok feats =>
    match (runFeatures reg mkWorld feats { poisoned := false, loc := none }).2 with
    | .error e =>
      (Event.visit_start :: (runFeatures reg mkWorld feats
        { poisoned := false, loc := none }).1, .error (.stepPanic e))
    | .ok _ =>
      (Event.visit_start :: ((runFeatures reg mkWorld feats
        { poisoned := false, loc := none }).1 ++ [Event.visit_finish]), .ok ())

/-- The counters of `struct DefaultOutput`; the `stdout` handle and
`cur_feature` string only affect printing and are omitted. -/
structure DefaultOutput where
  scenario_count : Nat
  scenario_skipped_count : Nat
  scenario_fail_count : Nat
  step_count : Nat
  skipped_count : Nat
  fail_count : Nat
deriving DecidableEq

/-- The zero-initialised `DefaultOutput::default()`. -/
def DefaultOutput.initial : DefaultOutput :=
  { scenario_count := 0, scenario_skipped_count := 0, scenario_fail_count := 0,
    step_count := 0, skipped_count := 0, fail_count := 0 }

/-- The counter updates of `impl OutputVisitor for DefaultOutput`, one case
per visitor method (printing stripped): `visit_scenario` increments
`scenario_count`; `visit_scenario_skipped` increments
`scenario_skipped_count`; `visit_step` increments `step_count`;
`visit_step_result` increments, per result: nothing for `Pass`;
`fail_count` AND `scenario_fail_count` for `Fail`; only `fail_count` for
`MutexPoisoned`; `skipped_count` for `Skipped` and for `Unimplemented`. -/
def visitEvent (o : DefaultOutput) : Event → DefaultOutput
  | .visit_start => o
  | .visit_feature _ => o
  | .visit_feature_end _ => o
  | .visit_scenario _ => { o with scenario_count := o.scenario_count + 1 }
  | .visit_scenario_skipped _ =>
    { o with scenario_skipped_count := o.scenario_skipped_count + 1 }
  | .visit_scenario_end _ => o
  | .visit_step _ => { o with step_count := o.step_count + 1 }
  | .visit_step_result _ r =>
    match r with
    | .Pass => o
    | .Fail _ _ =>
      { o with fail_count := o.fail_count + 1,
               scenario_fail_count := o.scenario_fail_count + 1 }
    | .MutexPoisoned => { o with fail_count := o.fail_count + 1 }
    | .Skipped => { o with skipped_count := o.skipped_count + 1 }
    | .Unimplemented => { o with skipped_count := o.skipped_count + 1 }
  | .visit_finish => o

/-- Folding a freshly constructed `DefaultOutput` over an event trace:
the counters it holds after observing a run. -/
def tally (evs : List Event) : DefaultOutput :=
  evs.foldl visitEvent DefaultOutput.initial

/-- Projection of an event trace to the step results it reports. -/
def stepResultOf : Event → Option TestResult
  | .visit_step_result _ r => some r
  | _ => none

/-- The ordered list of step results reported in a trace. -/
def stepResults (evs : List Event) : List TestResult :=
  evs.filterMap stepResultOf

/-- Whether an event is a `visit_scenario_skipped` call. -/
def isScenarioSkippedEvent : Event → Bool
  | .visit_scenario_skipped _ => true
  | _ => false

/-- Number of `visit_scenario_skipped` calls in a trace. -/
def countScenarioSkipped (evs : List Event) : Nat :=
  evs.countP isScenarioSkippedEvent

/-- Whether a result is `Skipped` or `Unimplemented` (the only results a
scenario reports after the skipping transition). -/
def isSkippedOrUnimpl : TestResult → Bool
  | .Skipped => true
  | .Unimplemented => true
  | _ => false

/-- Whether a result is a `Fail`. -/
def isFailResult : TestResult → Bool
  | .Fail _ _ => true
  | _ => false

/-- Skip-propagation shape of a result list: every result after the first
non-`Pass` one is `Skipped` or `Unimplemented`. -/
def skipTail : List TestResult → Bool
  | [] => true
  | .Pass :: t => skipTail t
  | _ :: t => t.all isSkippedOrUnimpl

/-- The outcome the step loop reports for a step once the scenario is in
the skipping state: `Skipped` when the step resolves to a handler (which
is then not invoked), `Unimplemented` when it does not resolve.  (When
`test_type` panics the loop aborts and reports nothing for the step, so
that case never contributes a result.) -/
def skippedOutcome (reg : Steps T) (s : Step) : TestResult :=
  match test_type reg s with
  | .ok (some _) => TestResult.Skipped
  | _ => TestResult.Unimplemented

/-- Projection of a resolution outcome to the captured strings handed to a
regex handler (when it resolved to one). -/
def resolvedCaptures : Except RunPanic (Option (TestCaseType T)) → Option (List String)
  | .ok (some (.Regex _ ms)) => some ms
  | _ => none

/-! Concrete inputs used by the witnesses and counterexamples below. -/

/-- A plain handler that completes normally. -/
def tcNoop : TestCase Unit :=
  ⟨fun w _ => ⟨w, "", none⟩⟩

/-- A regex handler that completes normally. -/
def rtcU : RegexTestCase Unit :=
  ⟨fun w _ _ => ⟨w, "", none⟩⟩

/-- A handler that panics with the `&str` payload `"boom"` and prints
nothing; no location is recorded. -/
def tcBoom : TestCase Unit :=
  ⟨fun w _ => ⟨w, "", some ⟨.strSlice "boom", none⟩⟩⟩

/-- A handler over a `Nat` world that increments it and completes
normally; its effect on the world witnesses that it was invoked. -/
def tcInc : TestCase Nat :=
  ⟨fun w _ => ⟨w + 1, "", none⟩⟩

/-- A handler over a `Nat` world that increments it and then panics. -/
def tcIncBoom : TestCase Nat :=
  ⟨fun w _ => ⟨w + 1, "", some ⟨.strSlice "boom", none⟩⟩⟩

/-- A stub handler: it panics with the `&str` payload
`"not yet implemented"` at a recorded location. -/
def tcStub : TestCase Unit :=
  ⟨fun w _ => ⟨w, "", some ⟨.strSlice "not yet implemented", some "src/steps.rs:7:9"⟩⟩⟩

/-- A handler that prints a diagnostic and then panics with a `String`
payload at a recorded location. -/
def tcAssert : TestCase Unit :=
  ⟨fun w _ => ⟨w, "left: 1, right: 2", some ⟨.string "assertion failed", some "src/steps.rs:9:9"⟩⟩⟩

/-- Hand-translation of the regex `^(a)b$`: it matches exactly the text
`"ab"`, with group 1 capturing `"a"`. -/
def patGroupA : Pattern :=
  ⟨"^(a)b$", fun s => if s = "ab" then some [some "ab", some "a"] else none⟩

/-- Hand-translation of the regex `^a(b)$`: it matches exactly the text
`"ab"`, with group 1 capturing `"b"`. -/
def patGroupB : Pattern :=
  ⟨"^a(b)$", fun s => if s = "ab" then some [some "ab", some "b"] else none⟩

/-- Hand-translation of the regex `^test (.*) regex$` from the crate's own
test module: the text must start with the five characters `"test "`, end
with the six characters `" regex"`, and be long enough for the two not to
overlap; the greedy group 1 captures everything in between.  Stated on
the character list so it computes by kernel reduction. -/
def testRegexPat : Pattern :=
  ⟨"^test (.*) regex$", fun s =>
    if s.toList.take 5 = ("test ").toList
        ∧ s.toList.drop (s.length - 6) = (" regex").toList
        ∧ 11 ≤ s.length then
      some [some s, some (String.mk ((s.toList.drop 5).take (s.length - 11)))]
    else none⟩

/-- Hand-translation of the regex `^b(a)?$`: on `"ba"` group 1 captures
`"a"`; on `"b"` the regex matches but the optional group 1 does not
participate. -/
def optGroupPat : Pattern :=
  ⟨"^b(a)?$", fun s =>
    if s = "ba" then some [some "ba", some "a"]
    else if s = "b" then some [some "b", none]
    else none⟩

/-- A registry over the `Unit` world holding only the given `when` regex
bag (in that iteration order). -/
def stepsWithWhenRegex (bag : List (Pattern × RegexTestCase Unit)) : Steps Unit :=
  { given := [], when := [], then_ := [],
    regex := { given := [], when := bag, then_ := [] } }

/-- The step `When "ab"`. -/
def stepAB : Step := ⟨.When, "ab"⟩

/-- The step `When "b"`. -/
def stepB : Step := ⟨.When, "b"⟩

/-- The step `When "test 123 regex"` (testable property 7 of the spec). -/
def stepTest123 : Step := ⟨.When, "test 123 regex"⟩

/-- The step `When "fail step"`. -/
def stepBoomStep : Step := ⟨.When, "fail step"⟩

/-- The step `When "missing step"`; no registry below registers it. -/
def stepMissing : Step := ⟨.When, "missing step"⟩

/-- A registry with an exact-text `when` entry for `"ab"` AND a regex
(`^(a)b$`) that also matches `"ab"`. -/
def regC2 : Steps Unit :=
  { given := [], when := [("ab", tcNoop)], then_ := [],
    regex := { given := [], when := [(patGroupA, rtcU)], then_ := [] } }

/-- A registry whose only entry is the exact-text `when` step
`"fail step"` with a panicking handler. -/
def regBoom : Steps Unit :=
  { given := [], when := [("fail step", tcBoom)], then_ := [],
    regex := { given := [], when := [], then_ := [] } }

/-- A registry whose only entry is the `^test (.*) regex$` pattern. -/
def regC9 : Steps Unit := stepsWithWhenRegex [(testRegexPat, rtcU)]

/-- An entirely empty registry. -/
def stepsEmptyU : Steps Unit :=
  { given := [], when := [], then_ := [],
    regex := { given := [], when := [], then_ := [] } }

/-- An unpoisoned `last_panic` cell with no recorded location. -/
def lp0 : LastPanic := ⟨false, none⟩

/-- A poisoned `last_panic` cell. -/
def lpPoisoned : LastPanic := ⟨true, none⟩

/-- A scenario with the single failing step. -/
def scenBoom1 : Scenario := ⟨"failing scenario", [stepBoomStep]⟩

/-- A feature (no background) holding `scenBoom1`. -/
def featBoom1 : Feature := ⟨"feature", none, [scenBoom1]⟩

/-- A scenario whose first step fails and whose second step is
unregistered. -/
def scenBoom2 : Scenario := ⟨"failing then missing", [stepBoomStep, stepMissing]⟩

/-- A feature (no background) holding `scenBoom2`. -/
def featBoom2 : Feature := ⟨"feature", none, [scenBoom2]⟩

/-! Helper lemmas about the step loop and the tally fold. -/

/-- Unfolding `stepResults` over a cons. -/
theorem stepResults_cons (e : Event) (t : List Event) :
    stepResults (e :: t) =
      match stepResultOf e with
      | some r => r :: stepResults t
      | none => stepResults t := by
  cases h : stepResultOf e <;> simp [stepResults, List.filterMap_cons, h]

/-- Unfolding `stepResults` over an append. -/
theorem stepResults_append (l1 l2 : List Event) :
    stepResults (l1 ++ l2) = stepResults l1 ++ stepResults l2 := by
  simp [stepResults]

/-- The empty trace reports no step results. -/
theorem stepResults_nil : stepResults [] = [] := rfl

/-- Unfolding `countScenarioSkipped` over a cons. -/
theorem countSS_cons (e : Event) (t : List Event) :
    countScenarioSkipped (e :: t)
      = countScenarioSkipped t + (if isScenarioSkippedEvent e = true then 1 else 0) := by
  simp [countScenarioSkipped, List.countP_cons]

/-- Unfolding `countScenarioSkipped` over an append. -/
theorem countSS_append (l1 l2 : List Event) :
    countScenarioSkipped (l1 ++ l2)
      = countScenarioSkipped l1 + countScenarioSkipped l2 := by
  simp [countScenarioSkipped, List.countP_append]

/-- The empty trace contains no `visit_scenario_skipped` call. -/
theorem countSS_nil : countScenarioSkipped [] = 0 := rfl

/-- While the scenario is already in the skipping state, the step loop
reports only `Skipped` or `Unimplemented` results and never emits another
`visit_scenario_skipped` event. -/
theorem runSteps_true_events (reg : Steps T) (sc : Scenario) (steps : List Step)
    (w : T) (lp : LastPanic) :
    (stepResults (runSteps reg sc steps w lp true).1).all isSkippedOrUnimpl = true
    ∧ countScenarioSkipped (runSteps reg sc steps w lp true).1 = 0 := by
  induction steps with
  | nil =>
    simp [runSteps, stepResults, countScenarioSkipped]
  | cons s rest ih =>
    cases htt : test_type reg s with
    | error e =>
      simp [runSteps, htt, stepResults, countScenarioSkipped, stepResultOf,
        isScenarioSkippedEvent]
    | ok o =>
      cases o with
      | none =>
        simpa [runSteps, htt, stepResults, countScenarioSkipped, stepResultOf,
          isScenarioSkippedEvent, isSkippedOrUnimpl] using ih
      | some tt =>
        simpa [runSteps, htt, stepResults, countScenarioSkipped, stepResultOf,
          isScenarioSkippedEvent, isSkippedOrUnimpl] using ih

/-- While the scenario is already in the skipping state, the step loop
never invokes a handler: the world and the `last_panic` cell come out
unchanged, and the skipping flag stays set. -/
theorem runSteps_true_state (reg : Steps T) (sc : Scenario) (steps : List Step)
    (w : T) (lp : LastPanic) (w' : T) (lp' : LastPanic) (sk' : Bool) :
    (runSteps reg sc steps w lp true).2 = .ok (w', lp', sk') →
    w' = w ∧ lp' = lp ∧ sk' = true := by
  induction steps with
  | nil =>
    intro h
    simp only [runSteps, Except.ok.injEq, Prod.mk.injEq] at h
    exact ⟨h.1.symm, h.2.1.symm, h.2.2.symm⟩
  | cons s rest ih =>
    intro h
    cases htt : test_type reg s with
    | error e => simp [runSteps, htt] at h
    | ok o =>
      cases o with
      | none =>
        rw [runSteps] at h
        simp only [htt] at h
        exact ih h
      | some tt =>
        rw [runSteps] at h
        simp only [htt, if_pos rfl] at h
        exact ih h

/-- While the scenario is already in the skipping state, and as long as no
`RunPanic` aborts the loop, the reported result of EVERY step is exactly
`skippedOutcome`: `Skipped` for a step that resolves to a handler,
`Unimplemented` for a step that does not. -/
theorem runSteps_true_results_map (reg : Steps T) (sc : Scenario) (steps : List Step)
    (w : T) (lp : LastPanic) (w' : T) (lp' : LastPanic) (sk' : Bool) :
    (runSteps reg sc steps w lp true).2 = Except.ok (w', lp', sk') →
    stepResults (runSteps reg sc steps w lp true).1
      = steps.map (skippedOutcome reg) := by
  induction steps with
  | nil =>
    intro h
    simp [runSteps, stepResults_nil]
  | cons s rest ih =>
    intro h
    cases htt : test_type reg s with
    | error e =>
      rw [runSteps] at h
      simp [htt] at h
    | ok o =>
      cases o with
      | none =>
        rw [runSteps] at h ⊢
        simp only [htt] at h ⊢
        simp [stepResults_cons, stepResults_append, stepResults_nil, stepResultOf,
          skippedOutcome, htt, ih h]
      | some tt =>
        rw [runSteps] at h ⊢
        simp only [htt, if_pos rfl] at h ⊢
        simp [stepResults_cons, stepResultOf, skippedOutcome, htt, ih h]

/-- From the non-skipping state, the step loop's reported results have the
skip-propagation shape: everything after the first non-`Pass` result is
`Skipped` or `Unimplemented` (this holds whether or not the loop later
aborts with a `RunPanic`). -/
theorem runSteps_false_skipTail (reg : Steps T) (sc : Scenario) (steps : List Step) :
    ∀ (w : T) (lp : LastPanic),
    skipTail (stepResults (runSteps reg sc steps w lp false).1) = true := by
  induction steps with
  | nil =>
    intro w lp
    simp [runSteps, stepResults, skipTail]
  | cons s rest ih =>
    intro w lp
    cases htt : test_type reg s with
    | error e =>
      simp [runSteps, htt, stepResults, stepResultOf, skipTail]
    | ok o =>
      cases o with
      | none =>
        have hall := (runSteps_true_events reg sc rest w lp).1
        simp [runSteps, htt, stepResults, stepResultOf, skipTail,
          stepResults] at hall ⊢
        exact hall
      | some tt =>
        cases hrt : run_test w tt s lp with
        | error e =>
          simp [runSteps, htt, hrt, stepResults, stepResultOf, skipTail]
        | ok st =>
          obtain ⟨w2, lp2, r⟩ := st
          cases r with
          | Pass =>
            have := ih w2 lp2
            simpa [runSteps, htt, hrt, stepResults, stepResultOf, skipTail,
              TestResult.isPass] using this
          | MutexPoisoned =>
            have hall := (runSteps_true_events reg sc rest w2 lp2).1
            simpa [runSteps, htt, hrt, stepResults, stepResultOf, skipTail,
              TestResult.isPass] using hall
          | Skipped =>
            have hall := (runSteps_true_events reg sc rest w2 lp2).1
            simpa [runSteps, htt, hrt, stepResults, stepResultOf, skipTail,
              TestResult.isPass] using hall
          | Unimplemented =>
            have hall := (runSteps_true_events reg sc rest w2 lp2).1
            simpa [runSteps, htt, hrt, stepResults, stepResultOf, skipTail,
              TestResult.isPass] using hall
          | Fail msg loc =>
            have hall := (runSteps_true_events reg sc rest w2 lp2).1
            simpa [runSteps, htt, hrt, stepResults, stepResultOf, skipTail,
              TestResult.isPass] using hall

/-- From the non-skipping state, when the step loop completes without a
`RunPanic`: `visit_scenario_skipped` was emitted exactly once if the final
state is skipping and never otherwise, and the final state is skipping
exactly when some reported result is not `Pass`. -/
theorem runSteps_false_skipcount (reg : Steps T) (sc : Scenario) (steps : List Step) :
    ∀ (w : T) (lp : LastPanic) (w' : T) (lp' : LastPanic) (sk' : Bool),
    (runSteps reg sc steps w lp false).2 = .ok (w', lp', sk') →
    countScenarioSkipped (runSteps reg sc steps w lp false).1
      = (if sk' = true then 1 else 0)
    ∧ sk' = (stepResults (runSteps reg sc steps w lp false).1).any
        (fun r => !r.isPass) := by
  induction steps with
  | nil =>
    intro w lp w' lp' sk' h
    simp only [runSteps, Except.ok.injEq, Prod.mk.injEq] at h
    simp [runSteps, stepResults, countScenarioSkipped, ← h.2.2]
  | cons s rest ih =>
    intro w lp w' lp' sk' h
    cases htt : test_type reg s with
    | error e => simp [runSteps, htt] at h
    | ok o =>
      cases o with
      | none =>
        rw [runSteps] at h ⊢
        simp only [htt] at h ⊢
        obtain ⟨-, -, hsk⟩ := runSteps_true_state reg sc rest w lp w' lp' sk' h
        have hc := (runSteps_true_events reg sc rest w lp).2
        subst hsk
        simp [stepResults_cons, stepResults_append, countSS_cons, countSS_append,
          stepResultOf, isScenarioSkippedEvent, hc, TestResult.isPass]
      | some tt =>
        cases hrt : run_test w tt s lp with
        | error e =>
          rw [runSteps] at h
          simp [htt, hrt] at h
        | ok st =>
          obtain ⟨w2, lp2, r⟩ := st
          cases r with
          | Pass =>
            rw [runSteps] at h ⊢
            simp only [htt, hrt] at h ⊢
            simp only [TestResult.isPass, Bool.false_eq_true, if_false, ite_true,
              ite_false, if_true] at h ⊢
            have := ih w2 lp2 w' lp' sk' (by simpa using h)
            simp [stepResults_cons, stepResults_append, countSS_cons, countSS_append,
              stepResultOf, isScenarioSkippedEvent, TestResult.isPass, this.1, this.2]
          | MutexPoisoned =>
            rw [runSteps] at h ⊢
            simp only [htt, hrt] at h ⊢
            simp only [TestResult.isPass, Bool.false_eq_true, if_false, ite_true,
              ite_false, if_true] at h ⊢
            obtain ⟨-, -, hsk⟩ :=
              runSteps_true_state reg sc rest w2 lp2 w' lp' sk' (by simpa using h)
            have hc := (runSteps_true_events reg sc rest w2 lp2).2
            subst hsk
            simp [stepResults_cons, stepResults_append, countSS_cons, countSS_append,
              stepResultOf, isScenarioSkippedEvent, hc, TestResult.isPass]
          | Skipped =>
            rw [runSteps] at h ⊢
            simp only [htt, hrt] at h ⊢
            simp only [TestResult.isPass, Bool.false_eq_true, if_false, ite_true,
              ite_false, if_true] at h ⊢
            obtain ⟨-, -, hsk⟩ :=
              runSteps_true_state reg sc rest w2 lp2 w' lp' sk' (by simpa using h)
            have hc := (runSteps_true_events reg sc rest w2 lp2).2
            subst hsk
            simp [stepResults_cons, stepResults_append, countSS_cons, countSS_append,
              stepResultOf, isScenarioSkippedEvent, hc, TestResult.isPass]
          | Unimplemented =>
            rw [runSteps] at h ⊢
            simp only [htt, hrt] at h ⊢
            simp only [TestResult.isPass, Bool.false_eq_true, if_false, ite_true,
              ite_false, if_true] at h ⊢
            obtain ⟨-, -, hsk⟩ :=
              runSteps_true_state reg sc rest w2 lp2 w' lp' sk' (by simpa using h)
            have hc := (runSteps_true_events reg sc rest w2 lp2).2
            subst hsk
            simp [stepResults_cons, stepResults_append, countSS_cons, countSS_append,
              stepResultOf, isScenarioSkippedEvent, hc, TestResult.isPass]
          | Fail msg loc =>
            rw [runSteps] at h ⊢
            simp only [htt, hrt] at h ⊢
            simp only [TestResult.isPass, Bool.false_eq_true, if_false, ite_true,
              ite_false, if_true] at h ⊢
            obtain ⟨-, -, hsk⟩ :=
              runSteps_true_state reg sc rest w2 lp2 w' lp' sk' (by simpa using h)
            have hc := (runSteps_true_events reg sc rest w2 lp2).2
            subst hsk
            simp [stepResults_cons, stepResults_append, countSS_cons, countSS_append,
              stepResultOf, isScenarioSkippedEvent, hc, TestResult.isPass]

/-- Folding `DefaultOutput`'s visitor over a trace adds, to the scenario
failure counter, the number of `Fail` step results, and to the scenario
skipped counter, the number of `visit_scenario_skipped` calls. -/
theorem tally_fold_counts (evs : List Event) :
    ∀ o : DefaultOutput,
    (evs.foldl visitEvent o).scenario_fail_count
      = o.scenario_fail_count + (stepResults evs).countP isFailResult
    ∧ (evs.foldl visitEvent o).scenario_skipped_count
      = o.scenario_skipped_count + countScenarioSkipped evs := by
  induction evs with
  | nil =>
    intro o
    simp [stepResults, countScenarioSkipped]
  | cons e t ih =>
    intro o
    cases e with
    | visit_step_result s r =>
      cases r <;>
        simp [visitEvent, stepResults, stepResultOf, countScenarioSkipped,
          isScenarioSkippedEvent, isFailResult, List.countP_cons, ih]
      all_goals omega
    | visit_scenario_skipped sc =>
      simp [visitEvent, stepResults, stepResultOf, countScenarioSkipped,
        isScenarioSkippedEvent, List.countP_cons, ih]
      omega
    | visit_start =>
      simp [visitEvent, stepResults, stepResultOf, countScenarioSkipped,
        isScenarioSkippedEvent, ih]
    | visit_feature f =>
      simp [visitEvent, stepResults, stepResultOf, countScenarioSkipped,
        isScenarioSkippedEvent, ih]
    | visit_feature_end f =>
      simp [visitEvent, stepResults, stepResultOf, countScenarioSkipped,
        isScenarioSkippedEvent, ih]
    | visit_scenario sc =>
      simp [visitEvent, stepResults, stepResultOf, countScenarioSkipped,
        isScenarioSkippedEvent, ih]
    | visit_scenario_end sc =>
      simp [visitEvent, stepResults, stepResultOf, countScenarioSkipped,
        isScenarioSkippedEvent, ih]
    | visit_step s =>
      simp [visitEvent, stepResults, stepResultOf, countScenarioSkipped,
        isScenarioSkippedEvent, ih]
    | visit_finish =>
      simp [visitEvent, stepResults, stepResultOf, countScenarioSkipped,
        isScenarioSkippedEvent, ih]

/-- A string has positive length exactly when it is nonempty. -/
theorem string_length_pos_iff (s : String) : 0 < s.length ↔ s ≠ "" := by
  cases s with
  | mk data =>
    constructor
    · intro h he
      rw [he] at h
      simp [String.length] at h
    · intro h
      rcases data with - | ⟨c, cs⟩
      · exact absurd rfl h
      · simp [String.length]

/-! Claim theorems. -/

/-- C6: every handler invocation that panics with a payload equal to the
literal string "not yet implemented" — whether carried as a `String` or as
a `&str` — is classified by `run_test` as `Unimplemented`, not `Fail`
(provided the shared capture mutex is not poisoned, the situation the
claim presupposes). -/
theorem unimplemented_marker_yields_unimplemented
    {T : Type} (w : T) (tt : TestCaseType T) (s : Step) (lp : LastPanic)
    (pinfo : PanicInfo)
    (hpois : lp.poisoned = false)
    (hpanic : (run_test_inner w tt s).panicked = some pinfo)
    (hpayload : pinfo.payload = Payload.string "not yet implemented"
      ∨ pinfo.payload = Payload.strSlice "not yet implemented") :
    run_test w tt s lp
      = .ok ((run_test_inner w tt s).world, { lp with loc := pinfo.location },
          TestResult.Unimplemented) := by
  rcases hpayload with hp | hp <;>
    simp [run_test, hpanic, hpois, downcastStr, hp]

/-- Witness for C6: a stub handler panicking with the `&str` marker is
reported `Unimplemented` and its recorded location is stored in the
`last_panic` cell. -/
theorem unimplemented_marker_yields_unimplemented_witness :
    run_test () (TestCaseType.Normal tcStub) stepMissing lp0
      = .ok ((), { lp0 with loc := some "src/steps.rs:7:9" },
          TestResult.Unimplemented) :=
  unimplemented_marker_yields_unimplemented () (TestCaseType.Normal tcStub)
    stepMissing lp0 ⟨Payload.strSlice "not yet implemented", some "src/steps.rs:7:9"⟩
    rfl rfl (Or.inr rfl)

/-- C7: every handler invocation that panics with a payload other than the
"not yet implemented" marker is classified `Fail(message, origin)`, where
`message` is the diagnostic output captured during the invocation when
nonempty and otherwise the formatted rendering `"Panicked with: {payload}"`,
and `origin` is the recorded panic location or the placeholder `"unknown"`
when none was recorded (capture mutex not poisoned, as the claim
presupposes). -/
theorem fail_message_and_origin
    {T : Type} (w : T) (tt : TestCaseType T) (s : Step) (lp : LastPanic)
    (pinfo : PanicInfo)
    (hpois : lp.poisoned = false)
    (hpanic : (run_test_inner w tt s).panicked = some pinfo)
    (hnm : downcastStr pinfo.payload ≠ "not yet implemented") :
    run_test w tt s lp
      = .ok ((run_test_inner w tt s).world, { lp with loc := pinfo.location },
          TestResult.Fail
            (if (run_test_inner w tt s).printed = "" then
              "Panicked with: " ++ downcastStr pinfo.payload
            else (run_test_inner w tt s).printed)
            (pinfo.location.getD "unknown")) := by
  simp only [run_test, hpanic, hpois, Bool.false_eq_true, if_false, if_neg hnm,
    ite_false]
  by_cases hp : (run_test_inner w tt s).printed = ""
  · have : ¬ 0 < (run_test_inner w tt s).printed.length := by
      simp [string_length_pos_iff, hp]
    cases hl : pinfo.location <;> simp [hp, this, Option.getD, hl]
  · have : 0 < (run_test_inner w tt s).printed.length :=
      (string_length_pos_iff _).2 hp
    cases hl : pinfo.location <;> simp [hp, this, Option.getD, hl]

/-- Witness for C7: a handler that prints a diagnostic and then panics with
a non-marker `String` payload at a recorded location yields a `Fail` whose
message is the captured output and whose origin is that location. -/
theorem fail_message_and_origin_witness :
    run_test () (TestCaseType.Normal tcAssert) stepMissing lp0
      = .ok ((), { lp0 with loc := some "src/steps.rs:9:9" },
          TestResult.Fail "left: 1, right: 2" "src/steps.rs:9:9") := by
  have h := fail_message_and_origin () (TestCaseType.Normal tcAssert) stepMissing
    lp0 ⟨Payload.string "assertion failed", some "src/steps.rs:9:9"⟩
    rfl rfl (by decide)
  simpa using h

/-- C5 counterexample: with the `last_panic` mutex poisoned, `run_test`
does NOT return the `MutexPoisoned` ("Corrupted") outcome and does not
refuse to execute the handler: a normally-completing handler is executed
(the world advances from 1 to 2) and the invocation returns `Pass`. -/
theorem poisoned_lock_returns_pass_cex :
    run_test 1 (TestCaseType.Normal tcInc) stepBoomStep lpPoisoned
      = .ok (2, lpPoisoned, TestResult.Pass)
    ∧ TestResult.Pass ≠ TestResult.MutexPoisoned :=
  ⟨rfl, by decide⟩

/-- C5 amended: when the shared `last_panic` mutex is poisoned the capture
engine still executes the handler; if the handler completes normally the
result is `Pass`, and if it panics the engine itself panics at the
`lock().expect("last_panic unpoisoned")` inside the panic hook instead of
returning an outcome.  `run_test` never produces the `MutexPoisoned`
outcome at all. -/
theorem poisoned_lock_behavior :
    (∀ (T : Type) (w : T) (tt : TestCaseType T) (s : Step) (lp : LastPanic),
      lp.poisoned = true → (run_test_inner w tt s).panicked = none →
      run_test w tt s lp
        = .ok ((run_test_inner w tt s).world, lp, TestResult.Pass))
    ∧ (∀ (T : Type) (w : T) (tt : TestCaseType T) (s : Step) (lp : LastPanic)
        (pinfo : PanicInfo),
      lp.poisoned = true → (run_test_inner w tt s).panicked = some pinfo →
      run_test w tt s lp = .error RunPanic.poisonedLock)
    ∧ (∀ (T : Type) (w : T) (tt : TestCaseType T) (s : Step) (lp : LastPanic)
        (w' : T) (lp' : LastPanic) (r : TestResult),
      run_test w tt s lp = .ok (w', lp', r) → r ≠ TestResult.MutexPoisoned) := by
  refine ⟨?_, ?_, ?_⟩
  · intro T w tt s lp hp hn
    simp [run_test, hn]
  · intro T w tt s lp pinfo hp hs
    simp [run_test, hs, hp]
  · intro T w tt s lp w' lp' r h hr
    subst hr
    cases hpan : (run_test_inner w tt s).panicked with
    | none => simp [run_test, hpan] at h
    | some pinfo =>
      by_cases hp : lp.poisoned
      · simp [run_test, hpan, hp] at h
      · by_cases hm : downcastStr pinfo.payload = "not yet implemented"
        · simp [run_test, hpan, hp, hm] at h
        · simp [run_test, hpan, hp, hm] at h

/-- Witness for C5 amended: a poisoned mutex together with a panicking
handler makes the engine itself panic at the poisoned lock. -/
theorem poisoned_lock_behavior_witness :
    run_test 5 (TestCaseType.Normal tcIncBoom) stepBoomStep lpPoisoned
      = .error RunPanic.poisonedLock :=
  poisoned_lock_behavior.2.1 Nat 5 (TestCaseType.Normal tcIncBoom) stepBoomStep
    lpPoisoned ⟨Payload.strSlice "boom", none⟩ rfl rfl

/-- C2: when the step's literal text has an exact-text registration of its
kind, resolution returns that exact-text handler — never a pattern
handler — regardless of which patterns of the same kind would also match
(the registry, including its regex bags, is arbitrary here). -/
theorem exact_text_match_wins
    {T : Type} (reg : Steps T) (step : Step) (kv : String × TestCase T)
    (hfind : (test_bag_for reg step.ty).find? (fun e => e.1 == step.value)
      = some kv) :
    test_type reg step = .ok (some (TestCaseType.Normal kv.2)) := by
  simp [test_type, hfind]

/-- Witness for C2: in a registry where the exact text `"ab"` is registered
AND the pattern `^(a)b$` also matches `"ab"`, the exact-text handler is
chosen. -/
theorem exact_text_match_wins_witness :
    test_type regC2 stepAB = .ok (some (TestCaseType.Normal tcNoop)) :=
  exact_text_match_wins regC2 stepAB ("ab", tcNoop) rfl

/-- C1 counterexample: the same two registered patterns `^(a)b$` and
`^a(b)$` in the two possible iteration orders of the regex `HashMap` (the
lists are permutations of one another, i.e. equal map contents) resolve
the step `When "ab"` to different handlers/captures — so the chosen
handler is a function of the map's unspecified iteration order, NOT of
the registry contents and registration sequence. -/
theorem regex_resolution_order_dependent_cex :
    ([(patGroupA, rtcU), (patGroupB, rtcU)]).Perm
      [(patGroupB, rtcU), (patGroupA, rtcU)]
    ∧ resolvedCaptures (test_type
        (stepsWithWhenRegex [(patGroupA, rtcU), (patGroupB, rtcU)]) stepAB)
      = some ["ab", "a"]
    ∧ resolvedCaptures (test_type
        (stepsWithWhenRegex [(patGroupB, rtcU), (patGroupA, rtcU)]) stepAB)
      = some ["ab", "b"] :=
  ⟨List.Perm.swap _ _ _, by decide, by decide⟩

/-- C1 amended: on an exact-text miss, resolution selects the FIRST
matching pattern in the regex map's iteration order; since a Rust
`HashMap`'s iteration order is unspecified (not registration order), two
iteration orders of the same registered patterns can resolve the same
step differently. -/
theorem regex_resolution_first_in_iteration_order :
    (∀ (T : Type) (reg : Steps T) (step : Step) (pat : Pattern)
        (tc : RegexTestCase T) (cs : List (Option String)) (ms : List String),
      (test_bag_for reg step.ty).find? (fun e => e.1 == step.value) = none →
      (regex_bag_for reg step.ty).find? (fun e => is_match e.1 step.value)
        = some (pat, tc) →
      pat.captures step.value = some cs →
      unwrapAll cs = some ms →
      test_type reg step = .ok (some (TestCaseType.Regex tc ms)))
    ∧ ∃ (b1 b2 : List (Pattern × RegexTestCase Unit)) (st : Step),
        b1.Perm b2
        ∧ resolvedCaptures (test_type (stepsWithWhenRegex b1) st)
          ≠ resolvedCaptures (test_type (stepsWithWhenRegex b2) st) := by
  constructor
  · intro T reg step pat tc cs ms hex hre hcs hms
    simp [test_type, hex, hre, hcs, hms]
  · exact ⟨[(patGroupA, rtcU), (patGroupB, rtcU)],
      [(patGroupB, rtcU), (patGroupA, rtcU)], stepAB,
      List.Perm.swap _ _ _, by decide⟩

/-- Witness for C1 amended: with iteration order `[^(a)b$, ^a(b)$]` the
first matching pattern `^(a)b$` is selected for `When "ab"`, handing the
handler the captures of that pattern. -/
theorem regex_resolution_first_in_iteration_order_witness :
    test_type (stepsWithWhenRegex [(patGroupA, rtcU), (patGroupB, rtcU)]) stepAB
      = .ok (some (TestCaseType.Regex rtcU ["ab", "a"])) :=
  regex_resolution_first_in_iteration_order.1 Unit
    (stepsWithWhenRegex [(patGroupA, rtcU), (patGroupB, rtcU)]) stepAB
    patGroupA rtcU [some "ab", some "a"] ["ab", "a"] rfl rfl rfl rfl

/-- C9: whenever resolution hands a regex handler a capture vector, that
vector is exactly the unwrapped capture list of the matched pattern —
`[group 0 (the whole match), group 1, ...]` as strings; in particular the
pattern `^test (.*) regex$` against `"test 123 regex"` yields
`["test 123 regex", "123"]`. -/
theorem regex_captures_passed_to_handler :
    (∀ (T : Type) (reg : Steps T) (step : Step) (tc : RegexTestCase T)
        (ms : List String),
      test_type reg step = .ok (some (TestCaseType.Regex tc ms)) →
      ∃ (pat : Pattern) (cs : List (Option String)),
        (regex_bag_for reg step.ty).find? (fun e => is_match e.1 step.value)
          = some (pat, tc)
        ∧ pat.captures step.value = some cs
        ∧ unwrapAll cs = some ms)
    ∧ test_type regC9 stepTest123
        = .ok (some (TestCaseType.Regex rtcU ["test 123 regex", "123"])) := by
  constructor
  · intro T reg step tc ms h
    rw [test_type] at h
    cases hex : (test_bag_for reg step.ty).find? (fun e => e.1 == step.value) with
    | some kv => simp [hex] at h
    | none =>
      simp only [hex] at h
      cases hre : (regex_bag_for reg step.ty).find?
          (fun e => is_match e.1 step.value) with
      | none => simp [hre] at h
      | some pe =>
        obtain ⟨p, t⟩ := pe
        simp only [hre] at h
        cases hcs : p.captures step.value with
        | none => simp [hcs] at h
        | some cs =>
          simp only [hcs] at h
          cases hms : unwrapAll cs with
          | none => simp [hms] at h
          | some ms2 =>
            simp only [hms, Except.ok.injEq, Option.some.injEq,
              TestCaseType.Regex.injEq] at h
            obtain ⟨hteq, hmeq⟩ := h
            subst hteq
            subst hmeq
            exact ⟨p, cs, rfl, hcs, hms⟩
  · rfl

/-- Witness for C9: the registry holding `^test (.*) regex$` resolves
`When "test 123 regex"` through a matched pattern whose unwrapped capture
list is `["test 123 regex", "123"]`. -/
theorem regex_captures_passed_to_handler_witness :
    ∃ (pat : Pattern) (cs : List (Option String)),
      (regex_bag_for regC9 stepTest123.ty).find?
        (fun e => is_match e.1 stepTest123.value) = some (pat, rtcU)
      ∧ pat.captures stepTest123.value = some cs
      ∧ unwrapAll cs = some ["test 123 regex", "123"] :=
  regex_captures_passed_to_handler.1 Unit regC9 stepTest123 rtcU
    ["test 123 regex", "123"] regex_captures_passed_to_handler.2

/-- C10: when the first matching pattern has a capture group that did not
participate in the match, resolution panics at the `Option::unwrap`
(modelled `RunPanic.unwrapNone`) instead of returning a handler with
captures. -/
theorem missing_capture_group_panics :
    ∀ (T : Type) (reg : Steps T) (step : Step) (pat : Pattern)
      (tc : RegexTestCase T) (cs : List (Option String)),
    (test_bag_for reg step.ty).find? (fun e => e.1 == step.value) = none →
    (regex_bag_for reg step.ty).find? (fun e => is_match e.1 step.value)
      = some (pat, tc) →
    pat.captures step.value = some cs →
    unwrapAll cs = none →
    test_type reg step = .error RunPanic.unwrapNone := by
  intro T reg step pat tc cs hex hre hcs hms
  simp [test_type, hex, hre, hcs, hms]

/-- Witness for C10: the optional-group pattern `^b(a)?$` matches the step
`When "b"` with group 1 not participating, and resolution aborts with the
unwrap panic. -/
theorem missing_capture_group_panics_witness :
    test_type (stepsWithWhenRegex [(optGroupPat, rtcU)]) stepB
      = .error RunPanic.unwrapNone :=
  missing_capture_group_panics Unit (stepsWithWhenRegex [(optGroupPat, rtcU)])
    stepB optGroupPat rtcU [some "b", none] rfl rfl rfl rfl

/-- C3 counterexample: in a scenario whose first step `Fail`s and whose
second step is unregistered, the second step's reported outcome is
`Unimplemented`, not `Skipped` — so after a non-`Pass` outcome a later
step CAN produce an outcome other than `Skipped` (its handler is still
never invoked: none exists). -/
theorem skip_propagation_unimplemented_cex :
    stepResults (run_scenario regBoom featBoom2 scenBoom2 lp0 ()).1
      = [TestResult.Fail "Panicked with: boom" "unknown", TestResult.Unimplemented]
    ∧ TestResult.Unimplemented ≠ TestResult.Skipped :=
  ⟨by decide, by decide⟩

/-- C3 amended: within any scenario, once a step produces a non-`Pass`
outcome no later handler is invoked; every subsequent step that RESOLVES
produces exactly `Skipped`, while a subsequent unresolved step produces
exactly `Unimplemented`.  Formally: (i) the reported results of any
scenario have the skip-tail shape (everything after the first non-`Pass`
result is `Skipped` or `Unimplemented`), and (ii) in the skipping state
the loop passes the world and the `last_panic` cell through untouched (no
handler runs) and the reported result of every step is precisely
`Skipped` when the step resolves to a handler and `Unimplemented` when it
does not (`skippedOutcome`). -/
theorem skip_propagation_after_non_pass :
    (∀ (T : Type) (reg : Steps T) (f : Feature) (sc : Scenario)
        (lp : LastPanic) (w0 : T),
      skipTail (stepResults (run_scenario reg f sc lp w0).1) = true)
    ∧ (∀ (T : Type) (reg : Steps T) (sc : Scenario) (steps : List Step)
        (w : T) (lp : LastPanic) (w' : T) (lp' : LastPanic) (sk' : Bool),
      (runSteps reg sc steps w lp true).2 = Except.ok (w', lp', sk') →
      w' = w ∧ lp' = lp ∧ sk' = true
      ∧ stepResults (runSteps reg sc steps w lp true).1
          = steps.map (skippedOutcome reg)) := by
  constructor
  · intro T reg f sc lp w0
    cases hr : (runSteps reg sc (scenario_steps f sc) w0 lp false).2 with
    | ok st =>
      simpa [run_scenario, hr, stepResults_cons, stepResults_append,
        stepResults_nil, stepResultOf] using
        runSteps_false_skipTail reg sc (scenario_steps f sc) w0 lp
    | error e =>
      simpa [run_scenario, hr, stepResults_cons, stepResults_append,
        stepResults_nil, stepResultOf] using
        runSteps_false_skipTail reg sc (scenario_steps f sc) w0 lp
  · intro T reg sc steps w lp w' lp' sk' h
    obtain ⟨h1, h2, h3⟩ := runSteps_true_state reg sc steps w lp w' lp' sk' h
    exact ⟨h1, h2, h3, runSteps_true_results_map reg sc steps w lp w' lp' sk' h⟩

/-- Witness for C3 amended: in the skipping state, a scenario whose first
step resolves (to the registered failing handler, which is NOT invoked)
and whose second step is unregistered reports exactly
`[Skipped, Unimplemented]`, with the world and `last_panic` cell
untouched. -/
theorem skip_propagation_after_non_pass_witness :
    (() : Unit) = () ∧ lp0 = lp0 ∧ true = true
    ∧ stepResults (runSteps regBoom scenBoom1 [stepBoomStep, stepMissing]
        () lp0 true).1
      = [TestResult.Skipped, TestResult.Unimplemented] :=
  skip_propagation_after_non_pass.2 Unit regBoom scenBoom1
    [stepBoomStep, stepMissing] () lp0 () lp0 true rfl

/-- C4 counterexample: when the feature path cannot be read
(`fs::read_dir` fails), `Steps::run` does abort with a signal distinct
from any `TestResult` (the `expect("feature path to exist")` panic), but
only AFTER the start lifecycle event has been emitted to the observer:
the emitted trace at the abort is `[visit_start]`, not `[]`. -/
theorem abort_after_start_event_cex :
    run stepsEmptyU () (Except.error "No such file or directory")
      = ([Event.visit_start],
          Except.error (RunAbort.configError "feature path to exist"))
    ∧ Event.visit_start
        ∈ (run stepsEmptyU () (Except.error "No such file or directory")).1 :=
  ⟨rfl, by decide⟩

/-- C4 amended: if the feature-source collection cannot be obtained, the
run aborts with a configuration-error signal distinct from any
`StepOutcome` (the `expect("feature path to exist")` panic, not a
`TestResult`), but the abort happens just AFTER the start lifecycle event
has been emitted: the trace at the abort is exactly `[visit_start]`. -/
theorem config_error_abort_after_start :
    ∀ (T : Type) (reg : Steps T) (mkWorld : T) (msg : String),
    run reg mkWorld (Except.error msg)
      = ([Event.visit_start],
          Except.error (RunAbort.configError "feature path to exist")) := by
  intro T reg mkWorld msg
  rfl

/-- C8 counterexample: a scenario with a single `Fail`ing step is counted
in BOTH the failed-scenario tally and the skipped-scenario tally
(`run_scenario` emits `visit_scenario_skipped` on any non-`Pass` outcome,
including `Fail`), contradicting "a scenario containing a Fail is not
counted in the skipped tally". -/
theorem failed_scenario_counted_skipped_cex :
    (tally (run_scenario regBoom featBoom1 scenBoom1 lp0 ()).1).scenario_fail_count
      = 1
    ∧ (tally (run_scenario regBoom featBoom1 scenBoom1 lp0 ()).1).scenario_skipped_count
      = 1 :=
  ⟨by decide, by decide⟩

/-- C8 amended: at scenario end the failed-scenario tally counts exactly
the `Fail` step results (a `MutexPoisoned`/Corrupted result increments
only the step-level `fail_count`, not `scenario_fail_count`), and the
skipped-scenario tally is incremented exactly once whenever ANY step
outcome was not `Pass` — including when the skipping transition was
triggered by a `Fail`. -/
theorem scenario_tally_semantics :
    ∀ (T : Type) (reg : Steps T) (f : Feature) (sc : Scenario) (lp : LastPanic)
      (w0 : T) (evs : List Event) (w' : T) (lp' : LastPanic) (sk' : Bool),
    run_scenario reg f sc lp w0 = (evs, Except.ok (w', lp', sk')) →
    (tally evs).scenario_fail_count = (stepResults evs).countP isFailResult
    ∧ (tally evs).scenario_skipped_count
        = (if (stepResults evs).any (fun r => !r.isPass) then 1 else 0)
    ∧ (∀ (o : DefaultOutput) (s : Step),
        visitEvent o (Event.visit_step_result s TestResult.MutexPoisoned)
          = { o with fail_count := o.fail_count + 1 }) := by
  intro T reg f sc lp w0 evs w' lp' sk' h
  refine ⟨?_, ?_, fun o s => rfl⟩
  · have hf := (tally_fold_counts evs DefaultOutput.initial).1
    simpa [tally, DefaultOutput.initial] using hf
  · cases hr : (runSteps reg sc (scenario_steps f sc) w0 lp false).2 with
    | error e => simp [run_scenario, hr] at h
    | ok st =>
      obtain ⟨w2, lp2, sk2⟩ := st
      rw [run_scenario] at h
      simp only [hr, Prod.mk.injEq, Except.ok.injEq] at h
      obtain ⟨hevs, hw, hlp, hsk⟩ := h
      subst hevs
      have hcount := runSteps_false_skipcount reg sc (scenario_steps f sc)
        w0 lp w2 lp2 sk2 hr
      have hs := (tally_fold_counts
        (Event.visit_scenario sc ::
          ((runSteps reg sc (scenario_steps f sc) w0 lp false).1 ++
            [Event.visit_scenario_end sc])) DefaultOutput.initial).2
      rw [tally, hs]
      simp only [DefaultOutput.initial, countSS_cons, countSS_append, countSS_nil,
        stepResults_cons, stepResults_append, stepResults_nil, stepResultOf,
        isScenarioSkippedEvent, List.append_nil]
      rw [← hcount.2]
      simp [hcount.1]

/-- Witness for C8 amended: the failing one-step scenario is tallied in
the skipped-scenario count (exactly once), even though its only outcome
is a `Fail`. -/
theorem scenario_tally_semantics_witness :
    (tally (run_scenario regBoom featBoom1 scenBoom1 lp0 ()).1).scenario_skipped_count
      = 1 := by
  have h := scenario_tally_semantics Unit regBoom featBoom1 scenBoom1 lp0 ()
    (run_scenario regBoom featBoom1 scenBoom1 lp0 ()).1 () lp0 true rfl
  rw [h.2.1]
  decide

end Cucumber
